import Mathlib

/-!
Verification of the SeerrBridge Request Reconciliation Engine spec against the
source in src/seerrbridge.py and src/seerr/.  Python strings are modelled as
Lean String / List Char, machine integers as Nat / Int, queues as lists with a
maxsize bound, and the interactive Availability Session as per-candidate input
records plus an event trace (trigger / undo clicks).  All definitions are
translated from the Python source; fuzzy-similarity scores and session I/O
outcomes enter the model as abstract boolean inputs since they come from
external libraries (fuzzywuzzy, selenium).
-/

namespace SeerrBridge

/-! ## Python string primitives

Models of the Python string operations used by the matching utilities:
str.strip, str.lower, str.isdigit, int(...), f-string decimal rendering,
zero-padded rendering (:02d / zfill(2)), substring containment (in), and
str.replace(pat, "").  ASCII-scoped (the source only feeds ASCII season and
episode tokens through these). -/

def isSpaceChar (c : Char) : Bool :=
  c = ' ' || c = '\t' || c = '\n' || c = '\r' || c = '\x0b' || c = '\x0c'

/-- Model of Python str.strip(). -/
def pyStrip (l : List Char) : List Char :=
  ((l.dropWhile isSpaceChar).reverse.dropWhile isSpaceChar).reverse

/-- Model of Python str.lower() (ASCII scope). -/
def pyLower (l : List Char) : List Char :=
  l.map Char.toLower

def isDigitChar (c : Char) : Bool :=
  48 ≤ c.toNat && c.toNat ≤ 57

/-- Model of Python str.isdigit() (ASCII scope: nonempty, all decimal digits). -/
def isDigits (l : List Char) : Bool :=
  !l.isEmpty && l.all isDigitChar

def digitVal (c : Char) : Nat :=
  c.toNat - 48

/-- Value of a decimal digit string, most significant first (the int(...) core). -/
def pyIntOfDigits (l : List Char) : Nat :=
  l.foldl (fun a c => 10 * a + digitVal c) 0

def digitChar (n : Nat) : Char :=
  Char.ofNat (48 + n)

/-- Decimal digits of a Nat, most significant first; fuel-based so that the
kernel can evaluate it.  Fuel natDigitsAux (n+1) n always suffices. -/
def natDigitsAux : Nat → Nat → List Char
  | 0, _ => []
  | fuel + 1, n =>
    if n < 10 then [digitChar n]
    else natDigitsAux fuel (n / 10) ++ [digitChar (n % 10)]

/-- Model of the f-string rendering of a nonnegative integer, f"{n}". -/
def natDigits (n : Nat) : List Char :=
  natDigitsAux (n + 1) n

/-- Model of f"{n:02d}" / str(n).zfill(2) for a Nat. -/
def pad2 (n : Nat) : List Char :=
  if n < 10 then '0' :: natDigits n else natDigits n

/-- Model of f"{n}" for a Python int (possibly negative). -/
def intStr (n : Int) : List Char :=
  if n < 0 then '-' :: natDigits n.natAbs else natDigits n.natAbs

/-- Model of f"{n:02d}" for a Python int: total width 2, sign included, so only
values in 0..9 receive a leading zero. -/
def pad2Int (n : Int) : List Char :=
  if 0 ≤ n && n < 10 then '0' :: natDigits n.natAbs else intStr n

/-- Whether pat is a prefix of l (decidable, kernel-evaluable). -/
def isPrefixL : List Char → List Char → Bool
  | [], _ => true
  | _ :: _, [] => false
  | p :: ps, c :: cs => p = c && isPrefixL ps cs

/-- Model of Python substring containment: pat in hay. -/
def containsSub (hay pat : List Char) : Bool :=
  isPrefixL pat hay ||
    match hay with
    | [] => false
    | _ :: rest => containsSub rest pat

/-- Left-to-right, non-overlapping removal of every occurrence of a nonempty
pattern: the core of Python str.replace(pat, "").  Fuel-based (fuel = input
length suffices) so that the kernel can evaluate it. -/
def removeAllSubAux (pat : List Char) : Nat → List Char → List Char
  | 0, l => l
  | _ + 1, [] => []
  | fuel + 1, c :: rest =>
    if isPrefixL pat (c :: rest) then
      removeAllSubAux pat fuel (rest.drop (pat.length - 1))
    else
      c :: removeAllSubAux pat fuel rest

/-- Model of Python str.replace(pat, "") for a nonempty pattern. -/
def removeAllSub (pat l : List Char) : List Char :=
  removeAllSubAux pat l.length l

/-- Model of Python int(s) on a string: strip whitespace, optional sign, then
decimal digits; None models the ValueError path.  (Underscore separators and
non-ASCII digits accepted by CPython are outside the model's scope.) -/
def pyInt (l : List Char) : Option Int :=
  match pyStrip l with
  | '-' :: ds => if isDigits ds then some (-(pyIntOfDigits ds : Int)) else none
  | '+' :: ds => if isDigits ds then some ((pyIntOfDigits ds : Int)) else none
  | ds => if isDigits ds then some ((pyIntOfDigits ds : Int)) else none

/-- Episode identifier rendering f"E{num:02d}" used across the source. -/
def epId (n : Nat) : String :=
  String.mk ('E' :: pad2 n)

/-- Episode identifier parsing int(episode_id.replace("E", "")) from
check_show_subscriptions; total model restricted to canonical E-digit ids. -/
def epNum (s : String) : Nat :=
  pyIntOfDigits (s.data.filter (fun c => c ≠ 'E'))

/-! ## Season normalization (src/seerr/utils.py normalize_season, duplicated at
src/seerrbridge.py:1006-1020) -/

/-- Embedding of normalize_season: strip and lowercase, then recognize "sN",
"season N" (digits), falling back to the literal "Season {season}". -/
def normalize_season (season : String) : String :=
  let t := pyLower (pyStrip season.data)
  if t.head? = some 's' && isDigits t.tail then
    String.mk ("Season ".data ++ natDigits (pyIntOfDigits t.tail))
  else if isPrefixL "season".data t && isDigits (pyStrip (t.drop 6)) then
    String.mk ("Season ".data ++ natDigits (pyIntOfDigits (pyStrip (t.drop 6))))
  else
    String.mk ("Season ".data ++ t)

/-- The season inputs whose normalization is stable: an "s"+digits or
"season"+digits form, or a bare digit string with no leading zero padding (its
own decimal rendering). -/
def seasonRecognized (season : String) : Bool :=
  let t := pyLower (pyStrip season.data)
  (t.head? = some 's' && isDigits t.tail) ||
  (isPrefixL "season".data t && isDigits (pyStrip (t.drop 6))) ||
  (isDigits t && t = natDigits (pyIntOfDigits t))

/-! ## Single-season matching (src/seerr/utils.py match_single_season,
duplicated at src/seerrbridge.py:1032-1067) -/

/-- Season-number extraction of match_single_season: lowercase and strip, peel
a "season"/"s" prefix via replace-all, then int(...). -/
def seasonNumberOf (season : String) : Option Int :=
  let s := pyStrip (pyLower season.data)
  let numStr :=
    if isPrefixL "season".data s then pyStrip (removeAllSub "season".data s)
    else if isPrefixL "s".data s then pyStrip (s.filter (fun c => c ≠ 's'))
    else s
  pyInt numStr

/-- The three token forms the matcher looks for in a lowercased title:
f"season {n}", f"s{n}", f"s{n:02d}" as substrings. -/
def hasSeasonToken (t : List Char) (n : Int) : Bool :=
  containsSub t ("season ".data ++ intStr n) ||
  containsSub t ('s' :: intStr n) ||
  containsSub t ('s' :: pad2Int n)

/-- Embedding of match_single_season: the requested season's token must appear
and no token of any other season number in 1..99 may appear. -/
def match_single_season (title season : String) : Bool :=
  let t := pyLower title.data
  match seasonNumberOf season with
  | none => false
  | some n =>
    hasSeasonToken t n &&
    !((List.range' 1 99).any fun k =>
      decide ((k : Int) ≠ n) && hasSeasonToken t (k : Int))

/-! ## Bounded FIFO queues and the drain cycle
(src/seerr/background_tasks.py: movie_queue / tv_queue are asyncio.Queue
instances with maxsize=250; put appends, get pops the front). -/

/-- A bounded FIFO queue: items in arrival order plus the configured bound. -/
structure BoundedQueue (α : Type) where
  items : List α
  maxsize : Nat
deriving DecidableEq, Repr

/-- Model of asyncio.Queue.full(). -/
def queueFull {α : Type} (q : BoundedQueue α) : Bool :=
  q.maxsize ≤ q.items.length

/-- Model of asyncio.Queue.put (append at the back). -/
def queuePut {α : Type} (q : BoundedQueue α) (x : α) : BoundedQueue α :=
  { q with items := q.items ++ [x] }

/-- Payload of a movie queue entry, the 6-tuple put by add_movie_to_queue. -/
structure MovieItem where
  imdb_id : String
  movie_title : String
  media_type : String
  media_id : Nat
  tmdb_id : Nat
deriving DecidableEq, Repr

/-- Payload of a TV queue entry: a tagged tv_processing tuple or the
("subscription_check",) singleton. -/
inductive TVItem where
  | tv_processing : String → String → String → Nat → Nat → TVItem
  | subscription_check : TVItem
deriving DecidableEq, Repr

/-- Embedding of add_movie_to_queue (background_tasks.py:292-301): reject when
full, otherwise append and report success. -/
def add_movie_to_queue (q : BoundedQueue MovieItem) (x : MovieItem) :
    Bool × BoundedQueue MovieItem :=
  if queueFull q then (false, q) else (true, queuePut q x)

/-- Embedding of add_tv_to_queue (background_tasks.py:303-312). -/
def add_tv_to_queue (q : BoundedQueue TVItem) (x : TVItem) :
    Bool × BoundedQueue TVItem :=
  if queueFull q then (false, q) else (true, queuePut q x)

/-- Embedding of add_subscription_check_to_queue (background_tasks.py:314-323):
same TV queue, fixed subscription_check payload. -/
def add_subscription_check_to_queue (q : BoundedQueue TVItem) :
    Bool × BoundedQueue TVItem :=
  if queueFull q then (false, q) else (true, queuePut q TVItem.subscription_check)

/-- Model of asyncio.Queue.get: pop the front element. -/
def queueGet {α : Type} : List α → Option (α × List α)
  | [] => none
  | x :: xs => some (x, xs)

/-- Full drain of one queue (process_movie_queue / process_tv_queue:
while not empty, get and process): returns the processed sequence and the
remaining queue contents. -/
def drainQueue {α : Type} : List α → List α × List α
  | [] => ([], [])
  | x :: xs =>
    let r := drainQueue xs
    (x :: r.1, r.2)

/-- An item processed during one drain cycle, tagged by source queue. -/
inductive ProcessedItem (μ τ : Type) where
  | movie : μ → ProcessedItem μ τ
  | tv : τ → ProcessedItem μ τ
deriving DecidableEq, Repr

/-- One drain cycle of process_queues (background_tasks.py:119-171): with items
present, drain the movie queue fully first, then the TV queue fully; the
result is the processing order of the cycle. -/
def process_queues_cycle {μ τ : Type} (mq : List μ) (tq : List τ) :
    List (ProcessedItem μ τ) :=
  (if mq.isEmpty then [] else (drainQueue mq).1.map ProcessedItem.movie) ++
  (if tq.isEmpty then [] else (drainQueue tq).1.map ProcessedItem.tv)

/-! ## Discrepancy Ledger entries and the recheck job
(episode_discrepancies.json; creation at src/seerrbridge.py:817-843 and
src/seerr/background_tasks.py:436-463; recheck in check_show_subscriptions). -/

/-- The season_details sub-object fetched from the schedule gateway. -/
structure SeasonDetails where
  episode_count : Nat
  aired_episodes : Nat
deriving DecidableEq, Repr

/-- One ledger entry.  seerr_id is only set on the background_tasks creation
path; timestamp is the formatted wall-clock string. -/
structure DiscrepancyEntry where
  show_title : String
  trakt_show_id : Nat
  imdb_id : String
  seerr_id : Option Nat
  season_number : Nat
  season_details : SeasonDetails
  timestamp : String
  failed_episodes : List String
deriving DecidableEq, Repr

/-- The persisted ledger document, shape { "discrepancies": [...] }. -/
structure Discrepancies where
  discrepancies : List DiscrepancyEntry
deriving DecidableEq, Repr

/-- Entry creation on the legacy path (src/seerrbridge.py:807-831): the
schedule's aired count may first advance by one if the next episode aired, and
failed_episodes is filled with every episode E01..E{episode_count}. -/
def legacy_create_discrepancy_entry (showTitle : String) (traktId : Nat)
    (imdbId : String) (seasonNumber episodeCount aired : Nat)
    (nextHasAired : Bool) (timestamp : String) : DiscrepancyEntry :=
  { show_title := showTitle
    trakt_show_id := traktId
    imdb_id := imdbId
    seerr_id := none
    season_number := seasonNumber
    season_details :=
      { episode_count := episodeCount
        aired_episodes := if nextHasAired then aired + 1 else aired }
    timestamp := timestamp
    failed_episodes := (List.range' 1 episodeCount).map epId }

/-- Entry creation on the queue-population path
(src/seerr/background_tasks.py:424-452): the local aired count is updated
alongside the schedule and failed_episodes only covers aired episodes
E01..E{aired}. -/
def populate_create_discrepancy_entry (showTitle : String) (traktId : Nat)
    (imdbId : String) (seerrId : Nat) (seasonNumber episodeCount aired : Nat)
    (nextHasAired : Bool) (timestamp : String) : DiscrepancyEntry :=
  let aired' := if nextHasAired then aired + 1 else aired
  { show_title := showTitle
    trakt_show_id := traktId
    imdb_id := imdbId
    seerr_id := some seerrId
    season_number := seasonNumber
    season_details := { episode_count := episodeCount, aired_episodes := aired' }
    timestamp := timestamp
    failed_episodes := (List.range' 1 aired').map epId }

/-- Events of the retried ledger read in search_on_debrid
(src/seerrbridge.py:1374-1386). -/
inductive LoadEvent where
  | attemptRead : Nat → LoadEvent
  | sleepMs : Nat → LoadEvent
deriving DecidableEq, Repr

/-- The retry loop body: results gives each attempt's parse outcome (none
models json.JSONDecodeError).  A success breaks out; a failure before the last
attempt sleeps 100ms and retries; the last failure logs and substitutes the
empty document.  The attempt list enumerates range(max_retries). -/
def load_discrepancies_loop (results : Nat → Option Discrepancies)
    (maxRetries : Nat) : List Nat → Discrepancies × List LoadEvent
  | [] => ({ discrepancies := [] }, [])
  | a :: rest =>
    match results a with
    | some d => (d, [LoadEvent.attemptRead a])
    | none =>
      if a < maxRetries - 1 then
        let r := load_discrepancies_loop results maxRetries rest
        (r.1, LoadEvent.attemptRead a :: LoadEvent.sleepMs 100 :: r.2)
      else
        ({ discrepancies := [] }, [LoadEvent.attemptRead a])

/-- The concrete read of episode_discrepancies.json with max_retries = 3
(src/seerrbridge.py:1375-1386). -/
def load_discrepancies (results : Nat → Option Discrepancies) :
    Discrepancies × List LoadEvent :=
  load_discrepancies_loop results 3 [0, 1, 2]

/-- Per-entry schedule refresh of check_show_subscriptions
(src/seerrbridge.py:2007-2019): when episode_count differs from the freshly
fetched aired count, query whether episode aired+1 has aired (hasAired is the
gateway's answer) and advance by one on success.  Returns the updated aired
count and the list of episode numbers queried. -/
def schedule_refresh_step (episodeCount currentAired : Nat) (hasAired : Bool) :
    Nat × List Nat :=
  if episodeCount ≠ currentAired then
    (if hasAired then currentAired + 1 else currentAired, [currentAired + 1])
  else
    (currentAired, [])

/-- Work-list construction of check_show_subscriptions
(src/seerrbridge.py:2025-2043): previously failed episodes whose number is at
most the current aired count, followed by the newly aired range
prev+1..current rendered as E-ids. -/
def buildWorkList (failedEpisodes : List String) (prevAired curAired : Nat) :
    List (Nat × String) :=
  (failedEpisodes.filterMap fun id =>
    if epNum id ≤ curAired then some (epNum id, id) else none) ++
  (if curAired > prevAired then
    (List.range' (prevAired + 1) (curAired - prevAired)).map fun n => (n, epId n)
  else [])

/-- Whether the recheck job touches the session for an entry: the navigation
at src/seerrbridge.py:2050-2052 is only reached when the work list is
nonempty (the guard at 2046-2048 continues otherwise). -/
def subscriptionEntryNavigates (failedEpisodes : List String)
    (prevAired curAired : Nat) : Bool :=
  !(buildWorkList failedEpisodes prevAired curAired).isEmpty

/-- The failed_episodes replacement written back by the recheck job
(src/seerrbridge.py:2069-2178): the ids of the work-list episodes that still
fail this cycle, in processing order; failsNow is the per-episode session
outcome. -/
def updatedFailedEpisodes (failedEpisodes : List String)
    (prevAired curAired : Nat) (failsNow : String → Bool) : List String :=
  ((buildWorkList failedEpisodes prevAired curAired).filter
    fun p => failsNow p.2).map Prod.snd

/-! ## Confirmation Engine

The cached (red button, RD 100%) scan of check_red_buttons
(src/seerrbridge.py:1078-1142) and the trigger scans: the movie result-box
loop (src/seerrbridge.py:1712-1818) and the per-episode result-box loop of
check_show_subscriptions (src/seerrbridge.py:2111-2156).  Fuzzy-ratio
comparisons, year extraction and DOM reads are external inputs recorded per
candidate; the model traces the Instant-RD trigger clicks and the RD (0%)
undo clicks. -/

/-- One red (already 100% cached) button with its scraped attributes.
titleRatioOk is the outcome of fuzz.partial_ratio(...) >= 65; year is
extract_year of the button title; foundSeason is extract_season of the button
title; epInTitle is episode_id.lower() in title.lower(). -/
structure RedBtn where
  isReport : Bool
  titleRatioOk : Bool
  year : Option Nat
  foundSeason : Option Nat
  epInTitle : Bool
deriving DecidableEq, Repr

/-- The match decision for one red button (src/seerrbridge.py:1106-1126):
title ratio, year within 1 for movies when both years are known, and for TV a
season found in the requested normalized seasons (Python truthiness drops
season 0) plus episode containment when an episode id is targeted. -/
def redMatched (isTV hasEp : Bool) (normSeasons : List Nat)
    (expectedYear : Option Nat) (r : RedBtn) : Bool :=
  let yearOk :=
    if !isTV then
      match r.year, expectedYear with
      | some ry, some ey => Nat.dist ry ey ≤ 1
      | _, _ => true
    else true
  let seasonOk :=
    match r.foundSeason with
    | some n => n ≠ 0 && normSeasons.contains n
    | none => false
  let epOk := if hasEp then r.epInTitle else true
  r.titleRatioOk && yearOk && (!isTV || (seasonOk && epOk))

/-- Embedding of check_red_buttons (src/seerrbridge.py:1078-1142): skip Report
buttons, return on the first match, and for TV without a target episode add
the matched season to the confirmed-season set. -/
def check_red_buttons (isTV hasEp : Bool) (normSeasons : List Nat)
    (expectedYear : Option Nat) (confirmed : List Nat) :
    List RedBtn → Bool × List Nat
  | [] => (false, confirmed)
  | r :: rest =>
    if r.isReport then
      check_red_buttons isTV hasEp normSeasons expectedYear confirmed rest
    else if redMatched isTV hasEp normSeasons expectedYear r then
      (true,
        if isTV && !hasEp then
          match r.foundSeason with
          | some n =>
            if n = 0 then confirmed
            else if confirmed.contains n then confirmed else confirmed ++ [n]
          | none => confirmed
        else confirmed)
    else
      check_red_buttons isTV hasEp normSeasons expectedYear confirmed rest

/-- RD button text observed after clicking Instant RD: "RD (0%)",
"RD (100%)", any other percentage, or a timeout waiting for the button. -/
inductive RDStatus where
  | zero : RDStatus
  | hundred : RDStatus
  | other : RDStatus
  | timeout : RDStatus
deriving DecidableEq, Repr

/-- One uncached result box with its scraped attributes and session outcomes.
withExtras: the skip-marker span is present; titleOk: some fuzzy title
variant reaches the 75 threshold; yearOk: both years extracted and within 1
(false covers both skip branches of the movie loop); epMatch: episode id
contained in the title and partial_ratio >= 50 (episode loop); clickOk:
prioritize_buttons_in_box succeeded; status: the RD button text read after
the click. -/
structure ResultBox where
  withExtras : Bool
  titleOk : Bool
  yearOk : Bool
  epMatch : Bool
  clickOk : Bool
  status : RDStatus
deriving DecidableEq, Repr

/-- Session actions traced by the scans, tagged by the 1-based box index. -/
inductive ScanEv where
  | trigger : Nat → ScanEv
  | undo : Nat → ScanEv
deriving DecidableEq, Repr

def scanEvIdx : ScanEv → Nat
  | ScanEv.trigger i => i
  | ScanEv.undo i => i

/-- Which trigger-scan loop is being modelled: the movie result-box loop or
the per-episode loop of check_show_subscriptions. -/
inductive ScanMode where
  | movie : ScanMode
  | episode : ScanMode
deriving DecidableEq, Repr

/-- Box eligibility before clicking: the movie loop skips extras boxes, then
title mismatches, then year mismatches (src/seerrbridge.py:1719-1777); the
episode loop requires the episode id in the title with ratio >= 50
(src/seerrbridge.py:2122). -/
def boxEligible : ScanMode → ResultBox → Bool
  | ScanMode.movie, b => !b.withExtras && b.titleOk && b.yearOk
  | ScanMode.episode, b => b.epMatch

/-- The trigger scan over enumerated result boxes, threading the Python
confirmation flag and emitting the trigger/undo trace.  Per box: skip if not
eligible; on a successful click read the RD status: 100% ends the scan with
success; 0% clicks the button once more to undo, resets the flag, and moves
to the next box; a status timeout keeps the flag and continues.  On any other
status the movie loop falls through to its bottom flag check and breaks
(src/seerrbridge.py:1817), while the episode loop just continues; a failed
click in the movie loop reaches the same bottom check. -/
def scanLoop (m : ScanMode) : Bool → List (Nat × ResultBox) → Bool × List ScanEv
  | flag, [] => (flag, [])
  | flag, (i, b) :: rest =>
    if boxEligible m b then
      if b.clickOk then
        match b.status with
        | RDStatus.hundred => (true, [ScanEv.trigger i])
        | RDStatus.zero =>
          let r := scanLoop m false rest
          (r.1, ScanEv.trigger i :: ScanEv.undo i :: r.2)
        | RDStatus.timeout =>
          let r := scanLoop m true rest
          (r.1, ScanEv.trigger i :: r.2)
        | RDStatus.other =>
          match m with
          | ScanMode.movie => (true, [ScanEv.trigger i])
          | ScanMode.episode =>
            let r := scanLoop m true rest
            (r.1, ScanEv.trigger i :: r.2)
      else
        match m with
        | ScanMode.movie =>
          if flag then (flag, []) else scanLoop m flag rest
        | ScanMode.episode => scanLoop m flag rest
    else
      scanLoop m flag rest

/-- The movie confirmation pass of search_on_debrid
(src/seerrbridge.py:1494-1818): red-button scan first; a confirmed movie
returns immediately (lines 1501-1503) with no box processing, otherwise the
result-box trigger scan runs over the enumerated boxes. -/
def moviePass (expectedYear : Option Nat) (reds : List RedBtn)
    (boxes : List ResultBox) : Bool × List ScanEv :=
  if (check_red_buttons false false [] expectedYear [] reds).1 then (true, [])
  else scanLoop ScanMode.movie false (List.enumFrom 1 boxes)

/-- The per-season step of the TV path (src/seerrbridge.py:1538-1542): red
buttons are checked for the season and a confirmation skips the season's box
scan entirely (continue); otherwise the season's box-scan outcome stands. -/
def tvSeasonStep (normSeasons : List Nat) (confirmed : List Nat)
    (reds : List RedBtn) (boxScanResult : Bool × List ScanEv) :
    Bool × List ScanEv :=
  if (check_red_buttons true false normSeasons none confirmed reds).1 then
    (true, [])
  else boxScanResult

/-! ## Helper lemmas on the string primitives -/

theorem digitChar_isDigit (k : Nat) (h : k < 10) :
    isDigitChar (digitChar k) = true := by
  interval_cases k <;> decide

theorem digitChar_val (k : Nat) (h : k < 10) :
    digitVal (digitChar k) = k := by
  interval_cases k <;> decide

theorem pyIntOfDigits_append (l : List Char) (c : Char) :
    pyIntOfDigits (l ++ [c]) = 10 * pyIntOfDigits l + digitVal c := by
  simp [pyIntOfDigits, List.foldl_append]

theorem isDigits_append_digit {l : List Char} {c : Char}
    (hl : isDigits l = true) (hc : isDigitChar c = true) :
    isDigits (l ++ [c]) = true := by
  simp only [isDigits, Bool.and_eq_true, Bool.not_eq_true', List.isEmpty_eq_false,
    List.all_append, List.all_cons, List.all_nil, Bool.and_true] at *
  exact ⟨by simp, hl.2, hc⟩

theorem natDigitsAux_spec :
    ∀ fuel n, n < fuel →
      isDigits (natDigitsAux fuel n) = true ∧
      pyIntOfDigits (natDigitsAux fuel n) = n := by
  intro fuel
  induction fuel with
  | zero => intro n h; exact absurd h (Nat.not_lt_zero n)
  | succ f ih =>
    intro n h
    by_cases h10 : n < 10
    · simp only [natDigitsAux, if_pos h10]
      refine ⟨by simp [isDigits, digitChar_isDigit n h10], ?_⟩
      simp [pyIntOfDigits, digitChar_val n h10]
    · have hdiv : n / 10 < f := by
        have := Nat.div_lt_self (show 0 < n by omega) (show 1 < 10 by omega)
        omega
      obtain ⟨ihd, ihv⟩ := ih (n / 10) hdiv
      simp only [natDigitsAux, if_neg h10]
      refine ⟨isDigits_append_digit ihd (digitChar_isDigit _ (Nat.mod_lt n (by omega))), ?_⟩
      rw [pyIntOfDigits_append, ihv, digitChar_val _ (Nat.mod_lt n (by omega))]
      exact Nat.div_add_mod n 10

theorem natDigits_isDigits (n : Nat) : isDigits (natDigits n) = true :=
  (natDigitsAux_spec (n + 1) n (Nat.lt_succ_self n)).1

theorem pyIntOfDigits_natDigits (n : Nat) : pyIntOfDigits (natDigits n) = n :=
  (natDigitsAux_spec (n + 1) n (Nat.lt_succ_self n)).2

theorem natDigits_ne_nil (n : Nat) : natDigits n ≠ [] := by
  have h := natDigits_isDigits n
  simp only [isDigits, Bool.and_eq_true, Bool.not_eq_true', List.isEmpty_eq_false] at h
  exact h.1

theorem natDigits_all_digits (n : Nat) :
    ∀ c ∈ natDigits n, isDigitChar c = true := by
  have h := natDigits_isDigits n
  simp only [isDigits, Bool.and_eq_true, List.all_eq_true] at h
  exact h.2

theorem pyIntOfDigits_pad2 (n : Nat) : pyIntOfDigits (pad2 n) = n := by
  unfold pad2
  split
  · show List.foldl _ _ ('0' :: natDigits n) = n
    have : (10 * 0 + digitVal '0') = 0 := by decide
    simp only [List.foldl_cons]
    rw [show (10 * 0 + digitVal '0') = 0 from by decide]
    exact pyIntOfDigits_natDigits n
  · exact pyIntOfDigits_natDigits n

theorem pad2_all_digits (n : Nat) : ∀ c ∈ pad2 n, isDigitChar c = true := by
  intro c hc
  unfold pad2 at hc
  split at hc
  · rcases List.mem_cons.mp hc with rfl | h
    · decide
    · exact natDigits_all_digits n c h
  · exact natDigits_all_digits n c hc

theorem epNum_epId (n : Nat) : epNum (epId n) = n := by
  unfold epNum epId
  show pyIntOfDigits (List.filter _ ('E' :: pad2 n)) = n
  rw [List.filter_cons_of_neg (by simp), List.filter_eq_self.mpr]
  · exact pyIntOfDigits_pad2 n
  · intro c hc
    have := pad2_all_digits n c hc
    simp only [isDigitChar, Bool.and_eq_true, decide_eq_true_eq] at this
    simp only [ne_eq, decide_eq_true_eq]
    intro hE
    subst hE
    revert this
    decide

theorem toLower_of_digit {c : Char} (h : isDigitChar c = true) :
    Char.toLower c = c := by
  simp only [isDigitChar, Bool.and_eq_true, decide_eq_true_eq] at h
  simp only [Char.toLower]
  rw [if_neg (by omega)]

theorem pyLower_digits {l : List Char}
    (h : ∀ c ∈ l, isDigitChar c = true) : pyLower l = l := by
  unfold pyLower
  induction l with
  | nil => rfl
  | cons c cs ih =>
    simp only [List.map_cons]
    rw [toLower_of_digit (h c (List.mem_cons_self c cs)),
      ih fun x hx => h x (List.mem_cons_of_mem c hx)]

theorem isSpaceChar_of_digit {c : Char} (h : isDigitChar c = true) :
    isSpaceChar c = false := by
  simp only [isDigitChar, Bool.and_eq_true, decide_eq_true_eq] at h
  simp only [isSpaceChar, Bool.or_eq_false_iff, decide_eq_false_iff_not]
  refine ⟨⟨⟨⟨⟨?_, ?_⟩, ?_⟩, ?_⟩, ?_⟩, ?_⟩ <;>
    (rintro rfl; revert h; decide)

theorem dropWhile_head_not {p : Char → Bool} {l : List Char}
    (h : ∀ c, l.head? = some c → p c = false) :
    List.dropWhile p l = l := by
  cases l with
  | nil => rfl
  | cons c cs => simp [List.dropWhile_cons, h c rfl]

theorem pyStrip_eq_self {l : List Char}
    (h1 : ∀ c, l.head? = some c → isSpaceChar c = false)
    (h2 : ∀ c, l.reverse.head? = some c → isSpaceChar c = false) :
    pyStrip l = l := by
  unfold pyStrip
  rw [dropWhile_head_not h1, dropWhile_head_not h2, List.reverse_reverse]

theorem pyStrip_append_digits {pre ds : List Char} {c0 : Char}
    (hhead : (pre ++ ds).head? = some c0) (hc0 : isSpaceChar c0 = false)
    (hne : ds ≠ []) (hall : ∀ c ∈ ds, isDigitChar c = true) :
    pyStrip (pre ++ ds) = pre ++ ds := by
  apply pyStrip_eq_self
  · intro c hc
    rw [hhead] at hc
    injection hc with hc
    rw [← hc]
    exact hc0
  · intro c hc
    rw [List.reverse_append] at hc
    cases hds : ds.reverse with
    | nil =>
      exact absurd (by simpa using congrArg List.reverse hds) hne
    | cons d tl =>
      rw [hds] at hc
      simp only [List.cons_append, List.head?_cons] at hc
      injection hc with hc
      rw [← hc]
      have hd : d ∈ ds := by
        have : d ∈ ds.reverse := by rw [hds]; exact List.mem_cons_self d tl
        exact List.mem_reverse.mp this
      exact isSpaceChar_of_digit (hall d hd)

theorem pyStrip_space_digits {ds : List Char} (hne : ds ≠ [])
    (hall : ∀ c ∈ ds, isDigitChar c = true) :
    pyStrip (' ' :: ds) = ds := by
  cases ds with
  | nil => exact absurd rfl hne
  | cons d tl =>
    have hd : isSpaceChar d = false :=
      isSpaceChar_of_digit (hall d (List.mem_cons_self d tl))
    unfold pyStrip
    rw [List.dropWhile_cons, if_pos (show isSpaceChar ' ' = true from rfl),
      List.dropWhile_cons, if_neg (by simp [hd])]
    rw [dropWhile_head_not ?_, List.reverse_reverse]
    intro c hc
    have hcmem : c ∈ (d :: tl).reverse :=
      List.mem_of_mem_head? (Option.mem_def.mpr hc)
    exact isSpaceChar_of_digit (hall c (List.mem_reverse.mp hcmem))

theorem isDigits_of_all {ds : List Char} (hne : ds ≠ [])
    (hall : ∀ c ∈ ds, isDigitChar c = true) : isDigits ds = true := by
  simp only [isDigits, Bool.and_eq_true, Bool.not_eq_true', List.isEmpty_eq_false,
    List.all_eq_true]
  exact ⟨hne, hall⟩

theorem normalize_season_seasonPrefix {ds : List Char} (hne : ds ≠ [])
    (hall : ∀ c ∈ ds, isDigitChar c = true) :
    normalize_season (String.mk ("Season ".data ++ ds)) =
      String.mk ("Season ".data ++ natDigits (pyIntOfDigits ds)) := by
  have hdata : (String.mk ("Season ".data ++ ds)).data = "Season ".data ++ ds := rfl
  have hstrip : pyStrip ("Season ".data ++ ds) = "Season ".data ++ ds :=
    pyStrip_append_digits
      (show ("Season ".data ++ ds).head? = some 'S' from rfl) (by decide) hne hall
  have hlowpre : List.map Char.toLower "Season ".data = "season ".data := rfl
  have hlow : pyLower ("Season ".data ++ ds) = "season ".data ++ ds := by
    show List.map Char.toLower ("Season ".data ++ ds) = "season ".data ++ ds
    rw [List.map_append, hlowpre,
      show List.map Char.toLower ds = ds from pyLower_digits hall]
  have ht : pyLower (pyStrip (String.mk ("Season ".data ++ ds)).data) =
      "season ".data ++ ds := by
    rw [hdata, hstrip, hlow]
  simp only [normalize_season, ht]
  have hc1 : (decide (("season ".data ++ ds).head? = some 's') &&
      isDigits ("season ".data ++ ds).tail) = false := by
    have htl : ("season ".data ++ ds).tail =
        'e' :: 'a' :: 's' :: 'o' :: 'n' :: ' ' :: ds := rfl
    rw [htl]
    simp [isDigits, show isDigitChar 'e' = false from rfl]
  rw [if_neg (by rw [hc1]; exact Bool.false_ne_true)]
  have hdrop : ("season ".data ++ ds).drop 6 = ' ' :: ds := rfl
  have hstrip2 : pyStrip (("season ".data ++ ds).drop 6) = ds := by
    rw [hdrop]
    exact pyStrip_space_digits hne hall
  have hpos : (isPrefixL "season".data ("season ".data ++ ds) &&
      isDigits (pyStrip (("season ".data ++ ds).drop 6))) = true := by
    rw [hstrip2, isDigits_of_all hne hall, Bool.and_true]
    rfl
  rw [if_pos hpos, hstrip2]

theorem normalize_season_render (n : Nat) :
    normalize_season (String.mk ("Season ".data ++ natDigits n)) =
      String.mk ("Season ".data ++ natDigits n) := by
  rw [normalize_season_seasonPrefix (natDigits_ne_nil n) (natDigits_all_digits n),
    pyIntOfDigits_natDigits]

theorem normalize_season_eq1 {s : String}
    (h : (decide ((pyLower (pyStrip s.data)).head? = some 's') &&
      isDigits (pyLower (pyStrip s.data)).tail) = true) :
    normalize_season s =
      String.mk ("Season ".data ++
        natDigits (pyIntOfDigits (pyLower (pyStrip s.data)).tail)) := by
  simp only [normalize_season]
  rw [if_pos h]

theorem normalize_season_eq2 {s : String}
    (h1 : (decide ((pyLower (pyStrip s.data)).head? = some 's') &&
      isDigits (pyLower (pyStrip s.data)).tail) = false)
    (h2 : (isPrefixL "season".data (pyLower (pyStrip s.data)) &&
      isDigits (pyStrip ((pyLower (pyStrip s.data)).drop 6))) = true) :
    normalize_season s =
      String.mk ("Season ".data ++
        natDigits (pyIntOfDigits (pyStrip ((pyLower (pyStrip s.data)).drop 6)))) := by
  simp only [normalize_season]
  rw [if_neg (by rw [h1]; exact Bool.false_ne_true), if_pos h2]

theorem normalize_season_eq3 {s : String}
    (h1 : (decide ((pyLower (pyStrip s.data)).head? = some 's') &&
      isDigits (pyLower (pyStrip s.data)).tail) = false)
    (h2 : (isPrefixL "season".data (pyLower (pyStrip s.data)) &&
      isDigits (pyStrip ((pyLower (pyStrip s.data)).drop 6))) = false) :
    normalize_season s = String.mk ("Season ".data ++ pyLower (pyStrip s.data)) := by
  simp only [normalize_season]
  rw [if_neg (by rw [h1]; exact Bool.false_ne_true),
    if_neg (by rw [h2]; exact Bool.false_ne_true)]

theorem normalize_season_recognized_shape {s : String}
    (h : seasonRecognized s = true) :
    ∃ n, normalize_season s = String.mk ("Season ".data ++ natDigits n) := by
  cases hq1 : (decide ((pyLower (pyStrip s.data)).head? = some 's') &&
      isDigits (pyLower (pyStrip s.data)).tail) with
  | true => exact ⟨_, normalize_season_eq1 hq1⟩
  | false =>
    cases hq2 : (isPrefixL "season".data (pyLower (pyStrip s.data)) &&
        isDigits (pyStrip ((pyLower (pyStrip s.data)).drop 6))) with
    | true => exact ⟨_, normalize_season_eq2 hq1 hq2⟩
    | false =>
      simp only [seasonRecognized, Bool.or_eq_true] at h
      rcases h with (h1 | h2) | h3
      · rw [hq1] at h1
        exact absurd h1 Bool.false_ne_true
      · rw [hq2] at h2
        exact absurd h2 Bool.false_ne_true
      · simp only [Bool.and_eq_true, decide_eq_true_eq] at h3
        refine ⟨pyIntOfDigits (pyLower (pyStrip s.data)), ?_⟩
        rw [normalize_season_eq3 hq1 hq2]
        rw [← h3.2]

/-! ## Claim C8: season normalization idempotence -/

/-- C8 counterexample: normalize_season is not idempotent on the unrecognized
input "xyz" — the first pass yields "Season xyz" and the second pass peels the
now-present "season" prefix, yielding "Season season xyz". -/
theorem claim8_counterexample :
    normalize_season (normalize_season "xyz") ≠ normalize_season "xyz" := by
  decide

/-- C8 (amended): normalization is idempotent for every season string whose
stripped lowercase form is an "s"+digits or "season"+digits token, or a bare
digit string equal to its own canonical decimal rendering; free-form inputs
(such as "xyz") are not idempotent. -/
theorem claim8_normalize_idempotent_on_recognized (s : String)
    (h : seasonRecognized s = true) :
    normalize_season (normalize_season s) = normalize_season s := by
  obtain ⟨n, hn⟩ := normalize_season_recognized_shape h
  rw [hn, normalize_season_render]

/-- Witness for the amended C8 theorem at the concrete input "S05". -/
theorem claim8_witness :
    seasonRecognized "S05" = true ∧
      normalize_season (normalize_season "S05") = normalize_season "S05" :=
  ⟨by decide, claim8_normalize_idempotent_on_recognized "S05" (by decide)⟩

/-! ## Claim C3: single-step schedule advance in the recheck cycle -/

/-- C3: in a recheck cycle, an entry with episode_count different from the
refreshed aired count queries exactly the single next unaired episode
(number currentAired + 1) and advances the aired count by exactly one when it
has aired — never by more, never decreasing, and never past episode_count
(given the schedule invariant aired ≤ count); with no discrepancy nothing is
queried and nothing changes. -/
theorem claim3_schedule_advances_by_at_most_one
    (episodeCount currentAired : Nat) (hasAired : Bool)
    (hle : currentAired ≤ episodeCount) :
    (∀ q ∈ (schedule_refresh_step episodeCount currentAired hasAired).2,
      q = currentAired + 1) ∧
    currentAired ≤ (schedule_refresh_step episodeCount currentAired hasAired).1 ∧
    (schedule_refresh_step episodeCount currentAired hasAired).1 ≤ currentAired + 1 ∧
    (schedule_refresh_step episodeCount currentAired hasAired).1 ≤ episodeCount ∧
    (episodeCount ≠ currentAired → hasAired = true →
      (schedule_refresh_step episodeCount currentAired hasAired).1 = currentAired + 1) ∧
    (episodeCount ≠ currentAired → hasAired = false →
      (schedule_refresh_step episodeCount currentAired hasAired).1 = currentAired) ∧
    (episodeCount = currentAired →
      (schedule_refresh_step episodeCount currentAired hasAired).1 = currentAired ∧
      (schedule_refresh_step episodeCount currentAired hasAired).2 = []) := by
  unfold schedule_refresh_step
  split_ifs with hne hair <;> simp_all
  all_goals omega

/-- Witness for C3 at episode_count = 10, aired = 8, next episode aired. -/
theorem claim3_witness :
    (schedule_refresh_step 10 8 true).1 = 9 ∧ (schedule_refresh_step 10 8 true).2 = [9] :=
  ⟨(claim3_schedule_advances_by_at_most_one 10 8 true (by decide)).2.2.2.2.1
      (by decide) rfl,
    by
      have h := (claim3_schedule_advances_by_at_most_one 10 8 true (by decide)).1
      decide⟩

/-! ## Claim C7: bounded enqueue semantics -/

/-- C7: each of the three enqueue operations returns false and leaves the
queue unchanged when the target queue is full, and returns true appending the
item when it is not. -/
theorem claim7_enqueue_reject_on_full :
    ∀ (qm : BoundedQueue MovieItem) (x : MovieItem)
      (qt : BoundedQueue TVItem) (y : TVItem),
    (queueFull qm = true → add_movie_to_queue qm x = (false, qm)) ∧
    (queueFull qm = false →
      add_movie_to_queue qm x = (true, { qm with items := qm.items ++ [x] })) ∧
    (queueFull qt = true → add_tv_to_queue qt y = (false, qt)) ∧
    (queueFull qt = false →
      add_tv_to_queue qt y = (true, { qt with items := qt.items ++ [y] })) ∧
    (queueFull qt = true → add_subscription_check_to_queue qt = (false, qt)) ∧
    (queueFull qt = false →
      add_subscription_check_to_queue qt =
        (true, { qt with items := qt.items ++ [TVItem.subscription_check] })) := by
  intro qm x qt y
  unfold add_movie_to_queue add_tv_to_queue add_subscription_check_to_queue queuePut
  refine ⟨?_, ?_, ?_, ?_, ?_, ?_⟩ <;> intro h <;> simp [h]

/-- Witness for C7: a full queue (maxsize 0) rejects, a fresh maxsize-250
queue accepts and appends. -/
theorem claim7_witness :
    add_movie_to_queue ⟨[], 0⟩ ⟨"tt1160419", "Dune (2021)", "movie", 5, 6⟩ =
      (false, ⟨[], 0⟩) ∧
    add_movie_to_queue ⟨[], 250⟩ ⟨"tt1160419", "Dune (2021)", "movie", 5, 6⟩ =
      (true, ⟨[⟨"tt1160419", "Dune (2021)", "movie", 5, 6⟩], 250⟩) ∧
    add_subscription_check_to_queue (⟨[], 0⟩ : BoundedQueue TVItem) =
      (false, ⟨[], 0⟩) :=
  ⟨(claim7_enqueue_reject_on_full ⟨[], 0⟩ ⟨"tt1160419", "Dune (2021)", "movie", 5, 6⟩
      ⟨[], 0⟩ TVItem.subscription_check).1 (by decide),
   (claim7_enqueue_reject_on_full ⟨[], 250⟩ ⟨"tt1160419", "Dune (2021)", "movie", 5, 6⟩
      ⟨[], 0⟩ TVItem.subscription_check).2.1 (by decide),
   (claim7_enqueue_reject_on_full ⟨[], 0⟩ ⟨"tt1160419", "Dune (2021)", "movie", 5, 6⟩
      ⟨[], 0⟩ TVItem.subscription_check).2.2.2.2.1 (by decide)⟩

/-! ## Claim C9: retried ledger read -/

/-- C9 counterexample: when every parse attempt fails, the retried read in
search_on_debrid does not surface an error or abort — it substitutes the
empty document and the pass proceeds with it (the model's return type has no
error channel because the source has none on this path: after three failures
it assigns repo_data = an empty dict and continues). -/
theorem claim9_counterexample :
    load_discrepancies (fun _ => none) =
      ({ discrepancies := [] },
        [LoadEvent.attemptRead 0, LoadEvent.sleepMs 100,
         LoadEvent.attemptRead 1, LoadEvent.sleepMs 100,
         LoadEvent.attemptRead 2]) := by
  decide

/-- C9 (amended): the ledger read retries up to 3 times with a 100ms sleep
between consecutive failed attempts and returns the first successful parse;
when all three attempts fail it logs and proceeds with the substitute empty
document instead of surfacing a read error. -/
theorem claim9_load_retries (results : Nat → Option Discrepancies) :
    (∀ d, results 0 = some d →
      load_discrepancies results = (d, [LoadEvent.attemptRead 0])) ∧
    (results 0 = none → ∀ d, results 1 = some d →
      load_discrepancies results =
        (d, [LoadEvent.attemptRead 0, LoadEvent.sleepMs 100,
             LoadEvent.attemptRead 1])) ∧
    (results 0 = none → results 1 = none → ∀ d, results 2 = some d →
      load_discrepancies results =
        (d, [LoadEvent.attemptRead 0, LoadEvent.sleepMs 100,
             LoadEvent.attemptRead 1, LoadEvent.sleepMs 100,
             LoadEvent.attemptRead 2])) ∧
    (results 0 = none → results 1 = none → results 2 = none →
      load_discrepancies results =
        ({ discrepancies := [] },
         [LoadEvent.attemptRead 0, LoadEvent.sleepMs 100,
          LoadEvent.attemptRead 1, LoadEvent.sleepMs 100,
          LoadEvent.attemptRead 2])) := by
  refine ⟨?_, ?_, ?_, ?_⟩
  · intro d h
    simp [load_discrepancies, load_discrepancies_loop, h]
  · intro h0 d h1
    simp [load_discrepancies, load_discrepancies_loop, h0, h1]
  · intro h0 h1 d h2
    simp [load_discrepancies, load_discrepancies_loop, h0, h1, h2]
  · intro h0 h1 h2
    simp [load_discrepancies, load_discrepancies_loop, h0, h1, h2]

/-- Witness for the amended C9 theorem: first attempt fails, second succeeds,
so exactly one 100ms sleep separates the two reads. -/
theorem claim9_witness :
    load_discrepancies
        (fun n => if n = 1 then some { discrepancies := [] } else none) =
      ({ discrepancies := [] },
       [LoadEvent.attemptRead 0, LoadEvent.sleepMs 100, LoadEvent.attemptRead 1]) :=
  (claim9_load_retries
      (fun n => if n = 1 then some { discrepancies := [] } else none)).2.1
    rfl { discrepancies := [] } rfl

/-! ## Claim C4: the recheck work list -/

theorem mem_buildWorkList {failed : List String} {prev cur n : Nat} {id : String} :
    (n, id) ∈ buildWorkList failed prev cur ↔
      (id ∈ failed ∧ epNum id = n ∧ n ≤ cur) ∨
      (prev + 1 ≤ n ∧ n ≤ cur ∧ id = epId n) := by
  simp only [buildWorkList, List.mem_append, List.mem_filterMap]
  constructor
  · rintro (⟨a, ha, heq⟩ | hb)
    · left
      by_cases hle : epNum a ≤ cur
      · rw [if_pos hle] at heq
        injection heq with heq
        rw [Prod.mk.injEq] at heq
        obtain ⟨h1, h2⟩ := heq
        subst h2
        subst h1
        exact ⟨ha, rfl, hle⟩
      · rw [if_neg hle] at heq
        cases heq
    · right
      by_cases hcp : cur > prev
      · rw [if_pos hcp, List.mem_map] at hb
        obtain ⟨m, hm, heq⟩ := hb
        rw [Prod.mk.injEq] at heq
        obtain ⟨h1, h2⟩ := heq
        subst h1
        rw [List.mem_range'_1] at hm
        exact ⟨hm.1, by omega, h2.symm⟩
      · rw [if_neg hcp] at hb
        cases hb
  · rintro (⟨hmem, hn, hle⟩ | ⟨h1, h2, h3⟩)
    · refine Or.inl ⟨id, hmem, ?_⟩
      rw [if_pos (by rw [hn]; exact hle), hn]
    · refine Or.inr ?_
      rw [if_pos (by omega : cur > prev), List.mem_map]
      exact ⟨n, by rw [List.mem_range'_1]; omega, by rw [h3]⟩

/-- C4: the set of episodes on the recheck work list is exactly the
previously failed episodes with number at most the current aired count,
together with the newly aired range prev+1..current; an empty work list means
the entry performs no session navigation; and in the concrete scenario with
airedEpisodes advancing 8 to 9 and failedEpisodes = [E08], the work list is
exactly (8, E08), (9, E09). -/
theorem claim4_work_list_contents (failed : List String) (prev cur : Nat) :
    (∀ n : Nat,
      (∃ id, (n, id) ∈ buildWorkList failed prev cur) ↔
        ((∃ id ∈ failed, epNum id = n ∧ n ≤ cur) ∨ (prev + 1 ≤ n ∧ n ≤ cur))) ∧
    (buildWorkList failed prev cur = [] →
      subscriptionEntryNavigates failed prev cur = false) ∧
    buildWorkList ["E08"] 8 9 = [(8, "E08"), (9, "E09")] := by
  refine ⟨?_, ?_, ?_⟩
  · intro n
    constructor
    · rintro ⟨id, hid⟩
      rcases mem_buildWorkList.mp hid with ⟨hmem, hn, hle⟩ | ⟨h1, h2, -⟩
      · exact Or.inl ⟨id, hmem, hn, hle⟩
      · exact Or.inr ⟨h1, h2⟩
    · rintro (⟨id, hmem, hn, hle⟩ | ⟨h1, h2⟩)
      · exact ⟨id, mem_buildWorkList.mpr (Or.inl ⟨hmem, hn, hle⟩)⟩
      · exact ⟨epId n, mem_buildWorkList.mpr (Or.inr ⟨h1, h2, rfl⟩)⟩
  · intro h
    unfold subscriptionEntryNavigates
    rw [h]
    rfl
  · decide

/-- Witness for C4: E09 is on the 8-to-9 work list via the newly-aired arm,
and an entry with nothing to do skips all session interaction. -/
theorem claim4_witness :
    (∃ id, (9, id) ∈ buildWorkList ["E08"] 8 9) ∧
      subscriptionEntryNavigates [] 5 5 = false :=
  ⟨((claim4_work_list_contents ["E08"] 8 9).1 9).mpr (Or.inr ⟨by decide, by decide⟩),
   (claim4_work_list_contents [] 5 5).2.1 (by decide)⟩

/-! ## Claim C5: failed episodes never beyond the aired count -/

/-- C5 counterexample: the legacy creation path of process_movie_requests
(src/seerrbridge.py:817-831) fills failed_episodes with every episode up to
episode_count, so with episode_count = 10 and aired_episodes = 8 the freshly
created entry contains E09 whose number exceeds aired_episodes. -/
theorem claim5_counterexample :
    "E09" ∈ (legacy_create_discrepancy_entry "Show X (2024)" 1 "tt0001" 2 10 8 false
        "20240101_000000").failed_episodes ∧
    epNum "E09" >
      (legacy_create_discrepancy_entry "Show X (2024)" 1 "tt0001" 2 10 8 false
        "20240101_000000").season_details.aired_episodes := by
  decide

/-- C5 (amended): the invariant holds on the queue-population creation path
(populate_queues_from_overseerr fills failed_episodes only up to the aired
count) and after every recheck update (the rewritten failed_episodes only
contains work-list episodes, all at most the current aired count); the legacy
creation path of process_movie_requests violates it whenever episode_count
exceeds aired_episodes. -/
theorem claim5_invariant_populate_and_update :
    (∀ (st : String) (tid : Nat) (iid : String) (sid sn ec a : Nat) (hA : Bool)
      (ts id : String),
      id ∈ (populate_create_discrepancy_entry st tid iid sid sn ec a hA
        ts).failed_episodes →
      epNum id ≤ (populate_create_discrepancy_entry st tid iid sid sn ec a hA
        ts).season_details.aired_episodes) ∧
    (∀ (failed : List String) (prev cur : Nat) (failsNow : String → Bool)
      (id : String),
      id ∈ updatedFailedEpisodes failed prev cur failsNow → epNum id ≤ cur) := by
  constructor
  · intro st tid iid sid sn ec a hA ts id hid
    have hfe : (populate_create_discrepancy_entry st tid iid sid sn ec a hA
        ts).failed_episodes = (List.range' 1 (if hA then a + 1 else a)).map epId := rfl
    have hae : (populate_create_discrepancy_entry st tid iid sid sn ec a hA
        ts).season_details.aired_episodes = (if hA then a + 1 else a) := rfl
    rw [hfe, List.mem_map] at hid
    obtain ⟨m, hm, rfl⟩ := hid
    rw [List.mem_range'_1] at hm
    rw [epNum_epId, hae]
    cases hA <;> simp_all
    all_goals omega
  · intro failed prev cur failsNow id hid
    simp only [updatedFailedEpisodes, List.mem_map, List.mem_filter] at hid
    obtain ⟨p, ⟨hmem, -⟩, hsnd⟩ := hid
    obtain ⟨n, id'⟩ := p
    subst hsnd
    rcases mem_buildWorkList.mp hmem with ⟨-, hn, hle⟩ | ⟨-, h2, h3⟩
    · rw [hn]
      exact hle
    · rw [h3, epNum_epId]
      exact h2

/-- Witness for the amended C5 theorem: a populate-path entry with
aired_episodes = 8 keeps E03, and E03's number is within the bound; an
updated entry in the 8-to-9 scenario keeps only episodes at most 9. -/
theorem claim5_witness :
    epNum "E03" ≤
      (populate_create_discrepancy_entry "Show X (2024)" 1 "tt0001" 7 2 10 8 false
        "ts").season_details.aired_episodes ∧
    epNum "E09" ≤ 9 :=
  ⟨claim5_invariant_populate_and_update.1 "Show X (2024)" 1 "tt0001" 7 2 10 8 false
      "ts" "E03" (by decide),
   claim5_invariant_populate_and_update.2 ["E08"] 8 9 (fun _ => true) "E09"
      (by decide)⟩

/-! ## Claim C6: FIFO order and movie-before-TV priority -/

theorem drainQueue_processes_in_order {α : Type} (q : List α) :
    (drainQueue q).1 = q := by
  induction q with
  | nil => rfl
  | cons x xs ih => simp [drainQueue, ih]

theorem foldl_enqueue_order {α : Type} (acc xs : List α) :
    xs.foldl (fun l x => l ++ [x]) acc = acc ++ xs := by
  induction xs generalizing acc with
  | nil => simp
  | cons x xs ih => simp [List.foldl_cons, ih]

/-- C6: one drain cycle processes each queue in strict FIFO order (the
processed sequence equals the queue contents, which put-appends build in
arrival order), and when both queues are non-empty at the start of the cycle
every movie item's position in the cycle's processing order precedes every
TV item's position. -/
theorem claim6_fifo_and_movie_priority {μ τ : Type} (mq : List μ) (tq : List τ) :
    ((drainQueue mq).1 = mq ∧ (drainQueue tq).1 = tq) ∧
    (∀ xs : List μ, (drainQueue (xs.foldl (fun l x => l ++ [x]) [])).1 = xs) ∧
    (mq ≠ [] → tq ≠ [] →
      ∀ (i j : Nat) (x : μ) (y : τ),
        (process_queues_cycle mq tq)[i]? = some (ProcessedItem.movie x) →
        (process_queues_cycle mq tq)[j]? = some (ProcessedItem.tv y) →
        i < j) := by
  refine ⟨⟨drainQueue_processes_in_order mq, drainQueue_processes_in_order tq⟩, ?_, ?_⟩
  · intro xs
    rw [foldl_enqueue_order, List.nil_append]
    exact drainQueue_processes_in_order xs
  · intro hm ht i j x y hi hj
    unfold process_queues_cycle at hi hj
    rw [if_neg (by simp [hm]), if_neg (by simp [ht]),
      drainQueue_processes_in_order, drainQueue_processes_in_order] at hi hj
    have hi' : i < (mq.map (ProcessedItem.movie : μ → ProcessedItem μ τ)).length := by
      by_contra hge
      push_neg at hge
      rw [List.getElem?_append_right hge, List.getElem?_map] at hi
      cases htq : tq[i - (mq.map (ProcessedItem.movie : μ → ProcessedItem μ τ)).length]? with
      | none => rw [htq] at hi; cases hi
      | some t => rw [htq] at hi; simp at hi
    have hj' : (mq.map (ProcessedItem.movie : μ → ProcessedItem μ τ)).length ≤ j := by
      by_contra hlt
      push_neg at hlt
      rw [List.getElem?_append_left hlt, List.getElem?_map] at hj
      cases hmq : mq[j]? with
      | none => rw [hmq] at hj; cases hj
      | some m => rw [hmq] at hj; simp at hj
    omega

/-- Witness for C6's cross-queue priority with one item in each queue. -/
theorem claim6_witness :
    (0 : Nat) < 1 ∧
      (process_queues_cycle ["m"] ["t"])[(0 : Nat)]? =
        some (ProcessedItem.movie "m") ∧
      (process_queues_cycle ["m"] ["t"])[(1 : Nat)]? = some (ProcessedItem.tv "t") :=
  ⟨claim6_fifo_and_movie_priority ["m"] ["t"] |>.2.2 (by decide) (by decide)
      0 1 "m" "t" (by decide) (by decide),
   by decide, by decide⟩

/-! ## Claim C10: the single-season matcher is exclusive -/

/-- C10: whenever the requested season parses to a number n, the matcher
accepts a title only if the title carries one of n's tokens and carries no
token of any other season number in 1..99; consequently a title carrying
tokens of two different seasons in 1..99 is always rejected. -/
theorem claim10_single_season_exclusive (title season : String) (n : Int)
    (hparse : seasonNumberOf season = some n) :
    (match_single_season title season = true →
      hasSeasonToken (pyLower title.data) n = true ∧
      ∀ k : Nat, 1 ≤ k → k ≤ 99 → (k : Int) ≠ n →
        hasSeasonToken (pyLower title.data) (k : Int) = false) ∧
    (∀ a b : Nat, 1 ≤ a → a ≤ 99 → 1 ≤ b → b ≤ 99 → a ≠ b →
      hasSeasonToken (pyLower title.data) (a : Int) = true →
      hasSeasonToken (pyLower title.data) (b : Int) = true →
      match_single_season title season = false) := by
  have hms : match_single_season title season =
      (hasSeasonToken (pyLower title.data) n &&
        !((List.range' 1 99).any fun k =>
          decide ((k : Int) ≠ n) && hasSeasonToken (pyLower title.data) (k : Int))) := by
    unfold match_single_season
    rw [hparse]
  constructor
  · intro hm
    rw [hms, Bool.and_eq_true] at hm
    obtain ⟨hpos, hneg⟩ := hm
    refine ⟨hpos, ?_⟩
    intro k hk1 hk99 hkn
    have hkmem : k ∈ List.range' 1 99 := by
      rw [List.mem_range'_1]
      omega
    cases hp : (decide ((k : Int) ≠ n) &&
        hasSeasonToken (pyLower title.data) (k : Int)) with
    | false =>
      rw [decide_eq_true hkn, Bool.true_and] at hp
      exact hp
    | true =>
      exfalso
      have hany : ((List.range' 1 99).any fun k =>
          decide ((k : Int) ≠ n) &&
            hasSeasonToken (pyLower title.data) (k : Int)) = true := by
        rw [List.any_eq_true]
        exact ⟨k, hkmem, hp⟩
      rw [hany] at hneg
      exact absurd hneg (by decide)
  · intro a b ha1 ha99 hb1 hb99 hab hta htb
    rw [hms]
    have hany : ((List.range' 1 99).any fun k =>
        decide ((k : Int) ≠ n) &&
          hasSeasonToken (pyLower title.data) (k : Int)) = true := by
      rw [List.any_eq_true]
      by_cases han : (a : Int) = n
      · have hbn : (b : Int) ≠ n := by
          intro hc
          exact hab (Nat.cast_injective (hc.trans han.symm)).symm
        exact ⟨b, by rw [List.mem_range'_1]; omega,
          by rw [decide_eq_true hbn, htb]; rfl⟩
      · exact ⟨a, by rw [List.mem_range'_1]; omega,
          by rw [decide_eq_true han, hta]; rfl⟩
    rw [hany]
    simp

/-- Witness for C10: the dual-season title "billions season 3 season 5" is
rejected for the request "Season 3". -/
theorem claim10_witness :
    match_single_season "billions season 3 season 5" "Season 3" = false :=
  (claim10_single_season_exclusive "billions season 3 season 5" "Season 3" 3
      (by decide)).2 3 5 (by decide) (by decide) (by decide) (by decide)
    (by decide) (by decide) (by decide)

/-! ## Claim C2: cached short-circuit -/

theorem check_red_buttons_fst_true_iff (isTV hasEp : Bool) (ns : List Nat)
    (ey : Option Nat) :
    ∀ (cf : List Nat) (reds : List RedBtn),
    (check_red_buttons isTV hasEp ns ey cf reds).1 = true ↔
      ∃ r ∈ reds, r.isReport = false ∧ redMatched isTV hasEp ns ey r = true := by
  intro cf reds
  induction reds generalizing cf with
  | nil => simp [check_red_buttons]
  | cons r rest ih =>
    simp only [check_red_buttons]
    by_cases hrep : r.isReport
    · rw [if_pos hrep, ih cf]
      constructor
      · rintro ⟨x, hx, hxr, hxm⟩
        exact ⟨x, List.mem_cons_of_mem r hx, hxr, hxm⟩
      · rintro ⟨x, hx, hxr, hxm⟩
        rcases List.mem_cons.mp hx with rfl | hx
        · rw [hrep] at hxr
          cases hxr
        · exact ⟨x, hx, hxr, hxm⟩
    · by_cases hm : redMatched isTV hasEp ns ey r = true
      · rw [if_neg hrep, if_pos hm]
        constructor
        · intro _
          exact ⟨r, List.mem_cons_self r rest, Bool.not_eq_true r.isReport ▸ hrep, hm⟩
        · intro _
          rfl
      · rw [if_neg hrep, if_neg hm, ih cf]
        constructor
        · rintro ⟨x, hx, hxr, hxm⟩
          exact ⟨x, List.mem_cons_of_mem r hx, hxr, hxm⟩
        · rintro ⟨x, hx, hxr, hxm⟩
          rcases List.mem_cons.mp hx with rfl | hx
          · exact absurd hxm hm
          · exact ⟨x, hx, hxr, hxm⟩

/-- C2: when the candidate list carries a non-Report red (100% cached) button
that passes the title/year (movie) or title/season/episode (TV) rules, the
movie confirmation pass returns confirmed immediately with an empty session
trace — the trigger scan never runs, so the cache-trigger capability is never
invoked — and the TV per-season step likewise skips its box scan entirely. -/
theorem claim2_cached_short_circuit (ey : Option Nat) (reds : List RedBtn)
    (boxes : List ResultBox) (ns cf : List Nat) (boxScan : Bool × List ScanEv) :
    ((∃ r ∈ reds, r.isReport = false ∧ redMatched false false [] ey r = true) →
      moviePass ey reds boxes = (true, [])) ∧
    ((∃ r ∈ reds, r.isReport = false ∧ redMatched true false ns none r = true) →
      tvSeasonStep ns cf reds boxScan = (true, [])) := by
  constructor
  · intro h
    unfold moviePass
    rw [if_pos ((check_red_buttons_fst_true_iff false false [] ey [] reds).mpr h)]
  · intro h
    unfold tvSeasonStep
    rw [if_pos ((check_red_buttons_fst_true_iff true false ns none cf reds).mpr h)]

/-- Witness for C2: one matching cached candidate short-circuits a movie pass
that also contains a clickable uncached box, with zero trigger events. -/
theorem claim2_witness :
    moviePass (some 2021)
        [⟨false, true, some 2021, none, false⟩]
        [⟨false, true, true, false, true, RDStatus.hundred⟩] = (true, []) ∧
    tvSeasonStep [2] []
        [⟨false, true, none, some 2, false⟩]
        (true, [ScanEv.trigger 1]) = (true, []) :=
  ⟨(claim2_cached_short_circuit (some 2021)
        [⟨false, true, some 2021, none, false⟩]
        [⟨false, true, true, false, true, RDStatus.hundred⟩] [] []
        (false, [])).1
      ⟨⟨false, true, some 2021, none, false⟩, by decide, rfl, by decide⟩,
   (claim2_cached_short_circuit (some 2021) [⟨false, true, none, some 2, false⟩]
        [] [2] [] (true, [ScanEv.trigger 1])).2
      ⟨⟨false, true, none, some 2, false⟩, by decide, rfl, by decide⟩⟩

/-! ## Claim C1: every 0%-triggered candidate is undone exactly once -/

theorem scanLoop_event_idx (m : ScanMode) :
    ∀ (pairs : List (Nat × ResultBox)) (flag : Bool) (e : ScanEv),
      e ∈ (scanLoop m flag pairs).2 → scanEvIdx e ∈ pairs.map Prod.fst := by
  intro pairs
  induction pairs with
  | nil =>
    intro flag e he
    simp [scanLoop] at he
  | cons p rest ih =>
    obtain ⟨j, c⟩ := p
    intro flag e he
    rw [List.map_cons]
    by_cases helig : boxEligible m c = true
    · by_cases hclick : c.clickOk = true
      · cases hst : c.status with
        | hundred =>
          have heq : scanLoop m flag ((j, c) :: rest) = (true, [ScanEv.trigger j]) := by
            simp only [scanLoop]
            rw [if_pos helig, if_pos hclick, hst]
          rw [heq] at he
          simp only [List.mem_singleton] at he
          subst he
          exact List.mem_cons_self _ _
        | zero =>
          have heq : scanLoop m flag ((j, c) :: rest) =
              ((scanLoop m false rest).1,
                ScanEv.trigger j :: ScanEv.undo j :: (scanLoop m false rest).2) := by
            simp only [scanLoop]
            rw [if_pos helig, if_pos hclick, hst]
          rw [heq] at he
          simp only [List.mem_cons] at he
          rcases he with rfl | rfl | he
          · exact List.mem_cons_self _ _
          · exact List.mem_cons_self _ _
          · exact List.mem_cons_of_mem _ (ih false e he)
        | timeout =>
          have heq : scanLoop m flag ((j, c) :: rest) =
              ((scanLoop m true rest).1,
                ScanEv.trigger j :: (scanLoop m true rest).2) := by
            simp only [scanLoop]
            rw [if_pos helig, if_pos hclick, hst]
          rw [heq] at he
          simp only [List.mem_cons] at he
          rcases he with rfl | he
          · exact List.mem_cons_self _ _
          · exact List.mem_cons_of_mem _ (ih true e he)
        | other =>
          cases m with
          | movie =>
            have heq : scanLoop ScanMode.movie flag ((j, c) :: rest) =
                (true, [ScanEv.trigger j]) := by
              simp only [scanLoop]
              rw [if_pos helig, if_pos hclick, hst]
            rw [heq] at he
            simp only [List.mem_singleton] at he
            subst he
            exact List.mem_cons_self _ _
          | episode =>
            have heq : scanLoop ScanMode.episode flag ((j, c) :: rest) =
                ((scanLoop ScanMode.episode true rest).1,
                  ScanEv.trigger j :: (scanLoop ScanMode.episode true rest).2) := by
              simp only [scanLoop]
              rw [if_pos helig, if_pos hclick, hst]
            rw [heq] at he
            simp only [List.mem_cons] at he
            rcases he with rfl | he
            · exact List.mem_cons_self _ _
            · exact List.mem_cons_of_mem _ (ih true e he)
      · cases m with
        | movie =>
          by_cases hflag : flag = true
          · have heq : scanLoop ScanMode.movie flag ((j, c) :: rest) = (flag, []) := by
              simp only [scanLoop]
              rw [if_pos helig, if_neg hclick, if_pos hflag]
            rw [heq] at he
            cases he
          · have heq : scanLoop ScanMode.movie flag ((j, c) :: rest) =
                scanLoop ScanMode.movie flag rest := by
              simp only [scanLoop]
              rw [if_pos helig, if_neg hclick, if_neg hflag]
            rw [heq] at he
            exact List.mem_cons_of_mem _ (ih flag e he)
        | episode =>
          have heq : scanLoop ScanMode.episode flag ((j, c) :: rest) =
              scanLoop ScanMode.episode flag rest := by
            simp only [scanLoop]
            rw [if_pos helig, if_neg hclick]
          rw [heq] at he
          exact List.mem_cons_of_mem _ (ih flag e he)
    · have heq : scanLoop m flag ((j, c) :: rest) = scanLoop m flag rest := by
        simp only [scanLoop]
        rw [if_neg helig]
      rw [heq] at he
      exact List.mem_cons_of_mem _ (ih flag e he)

theorem le_fst_of_mem_enumFrom {α : Type} :
    ∀ {k : Nat} {l : List α} {p : Nat × α}, p ∈ List.enumFrom k l → k ≤ p.1 := by
  intro k l
  induction l generalizing k with
  | nil =>
    intro p hp
    simp [List.enumFrom] at hp
  | cons x xs ih =>
    intro p hp
    simp only [List.enumFrom, List.mem_cons] at hp
    rcases hp with rfl | hp
    · exact le_refl _
    · have := ih hp
      omega

theorem pairwise_lt_enumFrom {α : Type} :
    ∀ (k : Nat) (l : List α),
      (List.enumFrom k l).Pairwise (fun p q => p.1 < q.1) := by
  intro k l
  induction l generalizing k with
  | nil => exact List.Pairwise.nil
  | cons x xs ih =>
    simp only [List.enumFrom]
    refine List.Pairwise.cons ?_ (ih (k + 1))
    intro q hq
    have := le_fst_of_mem_enumFrom hq
    omega

theorem fst_inj_of_pairwise {α : Type} :
    ∀ (l : List (Nat × α)), l.Pairwise (fun p q => p.1 < q.1) →
      ∀ (i : Nat) (b c : α), (i, b) ∈ l → (i, c) ∈ l → b = c := by
  intro l
  induction l with
  | nil =>
    intro _ i b c hb
    simp at hb
  | cons p rest ih =>
    intro hl i b c hb hc
    obtain ⟨hhead, htail⟩ := List.pairwise_cons.mp hl
    rcases List.mem_cons.mp hb with hbe | hbm
    · rcases List.mem_cons.mp hc with hce | hcm
      · have := hbe.trans hce.symm
        rw [Prod.mk.injEq] at this
        exact this.2
      · exfalso
        have := hhead (i, c) hcm
        rw [← hbe] at this
        exact absurd this (lt_irrefl i)
    · rcases List.mem_cons.mp hc with hce | hcm
      · exfalso
        have := hhead (i, b) hbm
        rw [← hce] at this
        exact absurd this (lt_irrefl i)
      · exact ih htail i b c hbm hcm

theorem scanLoop_undo_spec (m : ScanMode) :
    ∀ (pairs : List (Nat × ResultBox)),
      pairs.Pairwise (fun p q => p.1 < q.1) →
      ∀ (flag : Bool) (i : Nat) (b : ResultBox),
        (i, b) ∈ pairs → b.status = RDStatus.zero →
        ScanEv.trigger i ∈ (scanLoop m flag pairs).2 →
        (scanLoop m flag pairs).2.count (ScanEv.undo i) = 1 ∧
        ∃ l₁ l₂, (scanLoop m flag pairs).2 = l₁ ++ ScanEv.undo i :: l₂ ∧
          ∀ e ∈ l₁, scanEvIdx e ≤ i := by
  intro pairs
  induction pairs with
  | nil =>
    intro _ flag i b hmem
    simp at hmem
  | cons p rest ih =>
    obtain ⟨j, c⟩ := p
    intro hpw flag i b hmem hz ht
    have hhead : ∀ q ∈ rest, j < q.1 := (List.pairwise_cons.mp hpw).1
    have htail : rest.Pairwise (fun p q => p.1 < q.1) := (List.pairwise_cons.mp hpw).2
    have hnotin : ∀ (fl : Bool) (ev : ScanEv), scanEvIdx ev = j →
        ev ∉ (scanLoop m fl rest).2 := by
      intro fl ev hev hc
      have hidx := scanLoop_event_idx m rest fl ev hc
      rw [hev, List.mem_map] at hidx
      obtain ⟨q, hq, hq1⟩ := hidx
      have := hhead q hq
      omega
    have hmem_rest : ∀ (fl : Bool),
        ScanEv.trigger i ∈ (scanLoop m fl rest).2 → (i, b) ∈ rest := by
      intro fl hT
      rcases List.mem_cons.mp hmem with heq | h
      · exfalso
        rw [Prod.mk.injEq] at heq
        obtain ⟨hi, -⟩ := heq
        subst hi
        exact hnotin fl (ScanEv.trigger i) rfl hT
      · exact h
    have hlt_of_rest : (i, b) ∈ rest → j < i := fun h => hhead (i, b) h
    by_cases helig : boxEligible m c = true
    · by_cases hclick : c.clickOk = true
      · cases hst : c.status with
        | hundred =>
          have heq : scanLoop m flag ((j, c) :: rest) = (true, [ScanEv.trigger j]) := by
            simp only [scanLoop]
            rw [if_pos helig, if_pos hclick, hst]
          rw [heq] at ht
          simp only [List.mem_singleton, ScanEv.trigger.injEq] at ht
          subst ht
          have hbc : b = c :=
            fst_inj_of_pairwise _ hpw i b c hmem (List.mem_cons_self _ _)
          rw [hbc, hst] at hz
          cases hz
        | zero =>
          have heq : scanLoop m flag ((j, c) :: rest) =
              ((scanLoop m false rest).1,
                ScanEv.trigger j :: ScanEv.undo j :: (scanLoop m false rest).2) := by
            simp only [scanLoop]
            rw [if_pos helig, if_pos hclick, hst]
          rw [heq] at ht ⊢
          by_cases hij : i = j
          · subst hij
            constructor
            · have hT0 : (scanLoop m false rest).2.count (ScanEv.undo i) = 0 :=
                List.count_eq_zero.mpr (hnotin false (ScanEv.undo i) rfl)
              simp [List.count_cons, hT0]
            · refine ⟨[ScanEv.trigger i], (scanLoop m false rest).2, rfl, ?_⟩
              intro e hme
              rcases List.mem_cons.mp hme with rfl | hme
              · exact le_refl _
              · simp at hme
          · have ht' : ScanEv.trigger i ∈ (scanLoop m false rest).2 := by
              simp only [List.mem_cons] at ht
              rcases ht with h1 | h1 | h1
              · exact absurd (ScanEv.trigger.injEq .. ▸ h1) hij
              · cases h1
              · exact h1
            have hmem' : (i, b) ∈ rest := hmem_rest false ht'
            obtain ⟨hcount, l₁, l₂, hsplit, hbound⟩ := ih htail false i b hmem' hz ht'
            have hji : j < i := hlt_of_rest hmem'
            constructor
            · simp [List.count_cons, hij, hcount]
            · refine ⟨ScanEv.trigger j :: ScanEv.undo j :: l₁, l₂, ?_, ?_⟩
              · simp only [Prod.snd]
                rw [hsplit]
                rfl
              · intro e hme
                rcases List.mem_cons.mp hme with rfl | hme
                · simp only [scanEvIdx]
                  omega
                · rcases List.mem_cons.mp hme with rfl | hme
                  · simp only [scanEvIdx]
                    omega
                  · exact hbound e hme
        | timeout =>
          have heq : scanLoop m flag ((j, c) :: rest) =
              ((scanLoop m true rest).1,
                ScanEv.trigger j :: (scanLoop m true rest).2) := by
            simp only [scanLoop]
            rw [if_pos helig, if_pos hclick, hst]
          rw [heq] at ht ⊢
          have hij : i ≠ j := by
            intro hij
            subst hij
            have hbc : b = c :=
              fst_inj_of_pairwise _ hpw i b c hmem (List.mem_cons_self _ _)
            rw [hbc, hst] at hz
            cases hz
          have ht' : ScanEv.trigger i ∈ (scanLoop m true rest).2 := by
            simp only [List.mem_cons] at ht
            rcases ht with h1 | h1
            · exact absurd (ScanEv.trigger.injEq .. ▸ h1) hij
            · exact h1
          have hmem' : (i, b) ∈ rest := hmem_rest true ht'
          obtain ⟨hcount, l₁, l₂, hsplit, hbound⟩ := ih htail true i b hmem' hz ht'
          have hji : j < i := hlt_of_rest hmem'
          constructor
          · simp [List.count_cons, hcount]
          · refine ⟨ScanEv.trigger j :: l₁, l₂, ?_, ?_⟩
            · simp only [Prod.snd]
              rw [hsplit]
              rfl
            · intro e hme
              rcases List.mem_cons.mp hme with rfl | hme
              · simp only [scanEvIdx]
                omega
              · exact hbound e hme
        | other =>
          cases m with
          | movie =>
            have heq : scanLoop ScanMode.movie flag ((j, c) :: rest) =
                (true, [ScanEv.trigger j]) := by
              simp only [scanLoop]
              rw [if_pos helig, if_pos hclick, hst]
            rw [heq] at ht
            simp only [List.mem_singleton, ScanEv.trigger.injEq] at ht
            subst ht
            have hbc : b = c :=
              fst_inj_of_pairwise _ hpw i b c hmem (List.mem_cons_self _ _)
            rw [hbc, hst] at hz
            cases hz
          | episode =>
            have heq : scanLoop ScanMode.episode flag ((j, c) :: rest) =
                ((scanLoop ScanMode.episode true rest).1,
                  ScanEv.trigger j :: (scanLoop ScanMode.episode true rest).2) := by
              simp only [scanLoop]
              rw [if_pos helig, if_pos hclick, hst]
            rw [heq] at ht ⊢
            have hij : i ≠ j := by
              intro hij
              subst hij
              have hbc : b = c :=
                fst_inj_of_pairwise _ hpw i b c hmem (List.mem_cons_self _ _)
              rw [hbc, hst] at hz
              cases hz
            have ht' : ScanEv.trigger i ∈ (scanLoop ScanMode.episode true rest).2 := by
              simp only [List.mem_cons] at ht
              rcases ht with h1 | h1
              · exact absurd (ScanEv.trigger.injEq .. ▸ h1) hij
              · exact h1
            have hmem' : (i, b) ∈ rest := hmem_rest true ht'
            obtain ⟨hcount, l₁, l₂, hsplit, hbound⟩ := ih htail true i b hmem' hz ht'
            have hji : j < i := hlt_of_rest hmem'
            constructor
            · simp [List.count_cons, hcount]
            · refine ⟨ScanEv.trigger j :: l₁, l₂, ?_, ?_⟩
              · simp only [Prod.snd]
                rw [hsplit]
                rfl
              · intro e hme
                rcases List.mem_cons.mp hme with rfl | hme
                · simp only [scanEvIdx]
                  omega
                · exact hbound e hme
      · cases m with
        | movie =>
          by_cases hflag : flag = true
          · have heq : scanLoop ScanMode.movie flag ((j, c) :: rest) = (flag, []) := by
              simp only [scanLoop]
              rw [if_pos helig, if_neg hclick, if_pos hflag]
            rw [heq] at ht
            cases ht
          · have heq : scanLoop ScanMode.movie flag ((j, c) :: rest) =
                scanLoop ScanMode.movie flag rest := by
              simp only [scanLoop]
              rw [if_pos helig, if_neg hclick, if_neg hflag]
            rw [heq] at ht ⊢
            exact ih htail flag i b (hmem_rest flag ht) hz ht
        | episode =>
          have heq : scanLoop ScanMode.episode flag ((j, c) :: rest) =
              scanLoop ScanMode.episode flag rest := by
            simp only [scanLoop]
            rw [if_pos helig, if_neg hclick]
          rw [heq] at ht ⊢
          exact ih htail flag i b (hmem_rest flag ht) hz ht
    · have heq : scanLoop m flag ((j, c) :: rest) = scanLoop m flag rest := by
        simp only [scanLoop]
        rw [if_neg helig]
      rw [heq] at ht ⊢
      exact ih htail flag i b (hmem_rest flag ht) hz ht

/-- C1: in both trigger-scan loops (movie boxes and per-episode boxes), every
candidate that is triggered and whose post-trigger status reads RD (0%) is
undone by exactly one further click, and that undo click appears in the
session trace before any event of a later candidate, so no 0%-triggered item
is left behind when the scan moves on. -/
theorem claim1_zero_percent_rollback (m : ScanMode) (boxes : List ResultBox)
    (flag : Bool) (i : Nat) (b : ResultBox)
    (hmem : (i, b) ∈ List.enumFrom 1 boxes) (hz : b.status = RDStatus.zero)
    (ht : ScanEv.trigger i ∈ (scanLoop m flag (List.enumFrom 1 boxes)).2) :
    (scanLoop m flag (List.enumFrom 1 boxes)).2.count (ScanEv.undo i) = 1 ∧
    ∃ l₁ l₂, (scanLoop m flag (List.enumFrom 1 boxes)).2 =
        l₁ ++ ScanEv.undo i :: l₂ ∧ ∀ e ∈ l₁, scanEvIdx e ≤ i :=
  scanLoop_undo_spec m (List.enumFrom 1 boxes) (pairwise_lt_enumFrom 1 boxes)
    flag i b hmem hz ht

/-- Witness for C1: a 0%-then-cached sequence of two boxes produces exactly
one undo of box 1 before box 2's trigger. -/
theorem claim1_witness :
    (scanLoop ScanMode.movie false
        (List.enumFrom 1
          [(⟨false, true, true, true, true, RDStatus.zero⟩ : ResultBox),
           (⟨false, true, true, true, true, RDStatus.hundred⟩ : ResultBox)])).2.count
      (ScanEv.undo 1) = 1 :=
  (claim1_zero_percent_rollback ScanMode.movie
      [⟨false, true, true, true, true, RDStatus.zero⟩,
       ⟨false, true, true, true, true, RDStatus.hundred⟩]
      false 1 ⟨false, true, true, true, true, RDStatus.zero⟩
      (by decide) rfl (by decide)).1

end SeerrBridge
